import Mathlib

/-!
# Verification of `ical.py` (alexgoller/ical-markdown-creator)

Shallow embedding of the calendar-extraction script `ical.py`.  Python
date/time values are modelled by `PyDT`: a bare `datetime.date` carries a
day number, a `datetime.datetime` carries its wall-clock reading in seconds
together with an optional UTC-offset (the `tzinfo`; `none` models a naive
datetime).  `replace(tzinfo=...)` keeps the wall clock and only changes the
offset; ordering of two aware datetimes compares absolute instants
(`clock - offset`); comparing naive with aware, or a date with a datetime,
raises `TypeError`, which we model with `Except`.

An `Except.error` value of a pipeline function models the corresponding
Python exception propagating to the enclosing `except` block of
`parse_ical_data`, which prints a diagnostic and calls `sys.exit(1)`.
-/

/-- Python `datetime.date` / `datetime.datetime` values, as used by the
script: `date d` is a bare calendar date (`d` days since the epoch),
`dt clock tz` is a datetime whose wall-clock reading is `clock` seconds and
whose `tzinfo`, when present, is a fixed UTC offset of `tz` seconds. -/
inductive PyDT where
  | date (d : Int)
  | dt (clock : Int) (tz : Option Int)
deriving DecidableEq, Repr

def secondsPerDay : Int := 86400

/-- The absolute instant denoted by an aware datetime (`clock - offset`);
`none` for naive datetimes and bare dates, which denote no instant. -/
def PyDT.instant? : PyDT → Option Int
  | .dt c (some z) => some (c - z)
  | _ => none

/-- Python `<=` on date/time values.  Aware datetimes compare by absolute
instant, naive ones by wall clock; mixing naive with aware, or a bare date
with a datetime, raises `TypeError`. -/
def pyLE : PyDT → PyDT → Except String Bool
  | .dt c1 (some z1), .dt c2 (some z2) => .ok (decide (c1 - z1 ≤ c2 - z2))
  | .dt c1 none, .dt c2 none => .ok (decide (c1 ≤ c2))
  | .dt _ _, .dt _ _ => .error "TypeError"
  | .date d1, .date d2 => .ok (decide (d1 ≤ d2))
  | _, _ => .error "TypeError"

/-- `x.replace(tzinfo=datetime.timezone.utc)` applied exactly where the
script applies it (guarded by `isinstance(x, datetime.datetime)` and
`x.tzinfo is None`): a naive datetime gets the UTC zone attached to its
existing wall clock; aware datetimes and bare dates pass through.
Src lines 78-80 and 146-150 of `ical.py`. -/
def attachUTCIfNaiveDT : PyDT → PyDT
  | .dt c none => .dt c (some 0)
  | x => x

/-- Floor a wall-clock second count to the start of its calendar day. -/
def floorToDay (c : Int) : Int := c - c.emod secondsPerDay

/-- `datetime.datetime.combine(x, datetime.time.min)`: midnight (naive) of
the calendar date of `x`; when `x` is itself a datetime its time-of-day and
tzinfo are ignored.  Src lines 142-144. -/
def combineMin : PyDT → PyDT
  | .date d => .dt (d * secondsPerDay) none
  | .dt c _ => .dt (floorToDay c) none

/-- Abstract model of a `dateutil` recurrence rule as used through
`rrulestr(rrule_string, forceset=True)` and `.between`: `gen anchor` lists
the instance start instants (absolute UTC seconds) the rule generates when
its `DTSTART` denotes the instant `anchor`; `ok = false` models a rule whose
parsing or expansion raises (malformed syntax, arithmetic failure). -/
structure RRule where
  gen : Int → List Int
  ok : Bool

/-- One `VEVENT` component as the script reads it (src lines 64-75, 104-106,
133-135): the four text fields, the raw `dtstart`/`dtend` values and the
optional recurrence rule. -/
structure VEvent where
  summary : String
  description : String
  location : String
  organizer : String
  dtstart : Option PyDT
  dtend : Option PyDT
  rrule : Option RRule

/-- One entry of the `events` list built by `parse_ical_data`
(src lines 120-128 and 166-174). -/
structure EventRec where
  summary : String
  description : String
  location : String
  organizer : String
  start : PyDT
  «end» : Option PyDT
  all_day : Bool
deriving DecidableEq, Repr

/-- The `DTSTART` instant encoded into `rrule_string` (src line 83):
`dtstart.strftime('%Y%m%dT%H%M%SZ')` prints the value's own wall-clock
fields followed by a literal `Z`, so `rrulestr` anchors the rule at the
wall-clock reading re-interpreted as UTC — the tz offset of an aware
datetime is NOT applied; a bare date prints as its midnight. -/
def rruleAnchor : PyDT → Int
  | .date d => d * secondsPerDay
  | .dt c _ => c

/-- Src lines 86-92: when the (normalized) `dtstart` is an aware datetime,
naive window bounds get UTC attached; reading `.tzinfo` of a bare-date bound
would raise `AttributeError` (outside the inner `try`). -/
def windowAdjust (ds sd ed : PyDT) : Except String (PyDT × PyDT) :=
  match ds with
  | .dt _ (some _) =>
    match sd, ed with
    | .date _, _ => .error "AttributeError"
    | _, .date _ => .error "AttributeError"
    | _, _ => .ok (attachUTCIfNaiveDT sd, attachUTCIfNaiveDT ed)
  | _ => .ok (sd, ed)

/-- Effectful filter, used to model `rule.between` comparing each generated
instance against the window bounds (an error models `TypeError` inside the
`dateutil` machinery, e.g. naive bounds against aware instances). -/
def filterExc (p : Int → Except String Bool) : List Int → Except String (List Int)
  | [] => .ok []
  | t :: ts =>
    match p t with
    | .error e => .error e
    | .ok b =>
      match filterExc p ts with
      | .error e => .error e
      | .ok rest => .ok (if b then t :: rest else rest)

/-- `rule.between(start_date_aware, end_date_aware, inc=True)`
(src lines 96-97): the rule-generated instance starts `t` with
`start ≤ t ≤ end`, bounds inclusive; instances are aware UTC datetimes
(the `DTSTART` string ends in `Z`).  A malformed rule errors. -/
def ruleBetween (r : RRule) (anchor : Int) (sd ed : PyDT) : Except String (List Int) :=
  if r.ok then
    filterExc (fun t =>
      match pyLE sd (.dt t (some 0)) with
      | .error e => .error e
      | .ok b => if b then pyLE (.dt t (some 0)) ed else .ok false)
      (r.gen anchor)
  else .error "ValueError: malformed recurrence rule"

/-- Src lines 108-112: before subtracting, a naive endpoint of the original
(start, end) pair gets the OTHER endpoint's `tzinfo` attached (not UTC). -/
def fixTzMismatch : PyDT → PyDT → PyDT × PyDT
  | .dt c1 none, .dt c2 (some z) => (.dt c1 (some z), .dt c2 (some z))
  | .dt c1 (some z), .dt c2 none => (.dt c1 (some z), .dt c2 (some z))
  | os, oe => (os, oe)

/-- Python subtraction `oe - os` for two datetimes of equal awareness. -/
def pySubSame : PyDT → PyDT → Option Int
  | .dt c2 (some b), .dt c1 (some a) => some ((c2 - b) - (c1 - a))
  | .dt c2 none, .dt c1 none => some (c2 - c1)
  | _, _ => none

/-- Src lines 102-113: `duration = original_end - original_start`, computed
only when both original endpoints are datetimes, after the tz-mismatch fix;
`none` models `duration = None`. -/
def duration? (os oe : PyDT) : Option Int :=
  match os, oe with
  | .dt c1 t1, .dt c2 t2 =>
    match fixTzMismatch (.dt c1 t1) (.dt c2 t2) with
    | (os2, oe2) => pySubSame oe2 os2
  | _, _ => none

/-- Src lines 115-118: `event_end = event_start + duration` — but only under
`if duration:`, and a zero `timedelta` is falsy in Python, so a
zero-duration event gets `event_end = None`.  The instance start is an
aware UTC datetime, so the sum is too. -/
def instanceEnd (ev : VEvent) (t : Int) : Option PyDT :=
  match ev.dtend, ev.dtstart with
  | some oe, some os =>
    match duration? os oe with
    | some d => if d = 0 then none else some (.dt (t + d) (some 0))
    | none => none
  | _, _ => none

/-- The record appended for one expanded recurrence instance
(src lines 120-128): `all_day` is hard-coded `False`. -/
def recOccurrence (ev : VEvent) (t : Int) : EventRec :=
  { summary := ev.summary
    description := ev.description
    location := ev.location
    organizer := ev.organizer
    start := .dt t (some 0)
    «end» := instanceEnd ev t
    all_day := false }

/-- The inner `try` of the recurring path (src lines 95-130): any error
while building or enumerating the rule is printed and swallowed and the
definition contributes zero occurrences. -/
def expandRecurring (ev : VEvent) (r : RRule) (anchor : Int) (sd ed : PyDT) :
    List EventRec :=
  match ruleBetween r anchor sd ed with
  | .error _ => []
  | .ok instances => instances.map (recOccurrence ev)

/-- The recurring branch (src lines 72-130).  Reading `.dt` of a missing
`dtstart` (line 75) raises outside the inner `try`, as does the window
tz adjustment (lines 86-92); only the enumeration itself is protected. -/
def processRecurring (ev : VEvent) (r : RRule) (sd ed : PyDT) :
    Except String (List EventRec) :=
  match ev.dtstart with
  | none => .error "AttributeError"
  | some ds0 =>
    let ds := attachUTCIfNaiveDT ds0
    match windowAdjust ds sd ed with
    | .error e => .error e
    | .ok (sd', ed') => .ok (expandRecurring ev r (rruleAnchor ds) sd' ed')

/-- Src lines 137-150: all-day conversion then naive→UTC attachment.
Returns (`event_start`, `event_end`, `all_day`) as of line 150. -/
def nonRecNorm (ds : PyDT) (de? : Option PyDT) : PyDT × Option PyDT × Bool :=
  match ds with
  | .date d =>
    (attachUTCIfNaiveDT (combineMin (.date d)),
     (de?.map combineMin).map attachUTCIfNaiveDT, true)
  | .dt c tz =>
    (attachUTCIfNaiveDT (.dt c tz), de?.map attachUTCIfNaiveDT, false)

/-- Src line 165 with Python's short-circuit evaluation:
`start_date <= es <= end_date or (ee and start_date <= ee <= end_date)`.
A chained comparison evaluates left to right; the right disjunct is reached
only when the left one is false, so a `TypeError` there (e.g. an
unconverted bare-date end) only surfaces when the start is outside the
window. -/
def windowTest (sd ed esC : PyDT) (eeC? : Option PyDT) : Except String Bool :=
  match pyLE sd esC with
  | .error e => .error e
  | .ok b1 =>
    match (if b1 then pyLE esC ed else .ok false) with
    | .error e => .error e
    | .ok c1 =>
      if c1 then .ok true
      else
        match eeC? with
        | none => .ok false
        | some ee =>
          match pyLE sd ee with
          | .error e => .error e
          | .ok b2 => if b2 then pyLE ee ed else .ok false

/-- The non-recurring branch (src lines 133-174): normalize, run the
endpoint window test, and append at most one record. -/
def processNonRecurring (ev : VEvent) (sd ed : PyDT) :
    Except String (Option EventRec) :=
  match ev.dtstart with
  | none => .error "AttributeError"
  | some ds =>
    let n := nonRecNorm ds ev.dtend
    let esC := attachUTCIfNaiveDT n.1
    let eeC? := (n.2.1).map attachUTCIfNaiveDT
    match windowTest sd ed esC eeC? with
    | .error e => .error e
    | .ok true =>
      .ok (some { summary := ev.summary
                  description := ev.description
                  location := ev.location
                  organizer := ev.organizer
                  start := n.1
                  «end» := n.2.1
                  all_day := n.2.2 })
    | .ok false => .ok none

/-- One `VEVENT` of the walk (src lines 64-174): the recurring branch when
an `rrule` is present, the regular branch otherwise. -/
def processComponent (ev : VEvent) (sd ed : PyDT) : Except String (List EventRec) :=
  match ev.rrule with
  | some r => processRecurring ev r sd ed
  | none =>
    match processNonRecurring ev sd ed with
    | .error e => .error e
    | .ok o? => .ok o?.toList

/-- `parse_ical_data` over an already-decoded component list (src lines
56-180): events accumulate in component order; an uncaught exception during
any component reaches the outer `except`, which prints a diagnostic and
exits with status 1 — modelled by `.error`. -/
def parse_ical_data : List VEvent → PyDT → PyDT → Except String (List EventRec)
  | [], _, _ => .ok []
  | ev :: rest, sd, ed =>
    match processComponent ev sd ed with
    | .error e => .error e
    | .ok here =>
      match parse_ical_data rest sd ed with
      | .error e => .error e
      | .ok later => .ok (here ++ later)

/-- An aware UTC datetime, as `get_current_week_range` produces for both
window bounds (src lines 27-41). -/
def utcDT (c : Int) : PyDT := .dt c (some 0)

/-- Membership of (the instant of) a normalized value in the inclusive
window `[ls, le]`; `false` for values denoting no instant. -/
def inWindow (ls le : Int) : Option PyDT → Bool
  | some (.dt c (some z)) => decide (ls ≤ c - z) && decide (c - z ≤ le)
  | _ => false

/-- The normalized `event_start` of the non-recurring path, as compared on
src line 165. -/
def nonRecStart (ev : VEvent) : Option PyDT :=
  ev.dtstart.map (fun ds => attachUTCIfNaiveDT (nonRecNorm ds ev.dtend).1)

/-- The normalized `event_end` of the non-recurring path, as compared on
src line 165. -/
def nonRecEnd (ev : VEvent) : Option PyDT :=
  ev.dtstart.bind (fun ds => ((nonRecNorm ds ev.dtend).2.1).map attachUTCIfNaiveDT)

/-!
## String operations used by `format_events` and `save_to_markdown`

Python's `sep in s`, `s.split(sep)` and `s.strip()` are embedded over
character lists (structural recursion with a length fuel so every use
reduces in the kernel).
-/

/-- If `pat` is a prefix of `s`, return the remainder; `none` otherwise. -/
def chopMarker : List Char → List Char → Option (List Char)
  | [], s => some s
  | _ :: _, [] => none
  | c :: cs, d :: ds => if c = d then chopMarker cs ds else none

/-- Python `sep in s` for a non-empty `sep`: some suffix of `s` starts
with `sep`. -/
def containsSub (sep : List Char) : List Char → Bool
  | [] => (chopMarker sep []).isSome
  | d :: ds => (chopMarker sep (d :: ds)).isSome || containsSub sep ds

/-- Worker for Python `s.split(sep)`: leftmost non-overlapping occurrences
of `sep` cut `s` into pieces.  `n` is fuel, always called with
`n > s.length` so the fuel branch is never reached. -/
def pySplitAux (sep : List Char) : Nat → List Char → List (List Char)
  | 0, _ => [[]]
  | _ + 1, [] => [[]]
  | n + 1, d :: ds =>
    match chopMarker sep (d :: ds) with
    | some rest => [] :: pySplitAux sep n rest
    | none =>
      match pySplitAux sep n ds with
      | [] => [[d]]
      | t :: ts => (d :: t) :: ts

/-- Python `s.split(sep)` for a non-empty separator. -/
def pySplit (sep s : String) : List String :=
  (pySplitAux sep.data (s.data.length + 1) s.data).map (fun l => ⟨l⟩)

/-- Python's whitespace test as used by `str.strip()`. -/
def isPySpace (c : Char) : Bool :=
  c = ' ' || c = '\t' || c = '\n' || c = '\r' || c = '\x0b' || c = '\x0c'

/-- Python `s.strip()`: drop whitespace from both ends. -/
def pyStrip (s : String) : String :=
  ⟨((s.data.dropWhile isPySpace).reverse.dropWhile isPySpace).reverse⟩

/-- Python `sep in s` lifted to `String`. -/
def pyContains (sep s : String) : Bool := containsSub sep.data s.data

/-!
## `format_events` (src lines 182-210) and the rendering bits the claims
are about

The `Start`/`End` cells are `strftime` renderings of the occurrence
instants; no claim is about that textual rendering, so the formatted record
keeps only the four text fields the claims mention.
-/

/-- Src lines 196-199: `if 'MAILTO:' in organizer:` (containment, not a
prefix test) `organizer = organizer.split('MAILTO:')[1].strip()` — the
segment between the first and second occurrence of the marker (to the end
when it occurs once), whitespace-stripped. -/
def format_organizer (organizer : String) : String :=
  if pyContains "MAILTO:" organizer then
    pyStrip ((pySplit "MAILTO:" organizer).getD 1 "")
  else organizer

/-- One row of the `formatted_events` list (src lines 201-208), restricted
to the fields the claims are about. -/
structure FormattedEvent where
  Summary : String
  Location : String
  Organizer : String
  Description : String
deriving DecidableEq, Repr

/-- Src lines 186-208 for one event (minus the `strftime` cells). -/
def format_event (e : EventRec) : FormattedEvent :=
  { Summary := e.summary
    Location := e.location
    Organizer := format_organizer e.organizer
    Description := e.description }

/-- `format_events` (src lines 182-210). -/
def format_events (l : List EventRec) : List FormattedEvent :=
  l.map format_event

/-- Src lines 277-286: the details block truncates the description at the
first occurrence of a marker, trying `"Join Microsoft Teams Meeting"`
first, then `"Join Zoom Meeting"`, then the German Zoom invitation — an
`if/elif` priority order, not earliest-occurrence order. -/
def truncate_description (d : String) : String :=
  if pyContains "Join Microsoft Teams Meeting" d then
    (pySplit "Join Microsoft Teams Meeting" d).getD 0 ""
  else if pyContains "Join Zoom Meeting" d then
    (pySplit "Join Zoom Meeting" d).getD 0 ""
  else if pyContains "Sie wurden zu einem Zoom-Meeting eingeladen" d then
    (pySplit "Sie wurden zu einem Zoom-Meeting eingeladen" d).getD 0 ""
  else d

/-- Control-flow outcome of `save_to_markdown` (src lines 212-301): on an
empty event list it prints the no-events notice and returns without
touching the output file; otherwise it (re)writes the file.  Returns
(noticePrinted, fileWritten); a write failure (`RenderError`) is outside
the claims and not modelled. -/
def save_to_markdown (events : List FormattedEvent) : Bool × Bool :=
  if events = [] then (true, false)
  else (false, true)

/-- The tail of `main` after `parse_ical_data` succeeds (src lines 341-352):
format, save, then exit 1 when the output path does not exist — `open(_,'w')`
creates it when `save_to_markdown` writes, and a pre-existing file from an
earlier run survives the early return.  Returns
(fileWritten, noticePrinted, exitCode). -/
def mainTail (events : List EventRec) (preExists : Bool) : Bool × Bool × Nat :=
  let fe := format_events events
  match save_to_markdown fe with
  | (notice, wrote) =>
    (wrote, notice, if preExists || wrote then 0 else 1)

/-!
## Observables and concrete instances used by the theorems below
-/

/-- `isinstance(x, datetime.datetime)`. -/
def PyDT.isDatetime : PyDT → Bool
  | .dt _ _ => true
  | .date _ => false

/-- The wall-clock reading of a datetime (`none` for a bare date). -/
def PyDT.clock? : PyDT → Option Int
  | .dt c _ => some c
  | .date _ => none

/-- A plain timed non-recurring event starting 5 seconds into the window. -/
def evGood : VEvent :=
  { summary := "good", description := "", location := "", organizer := ""
    dtstart := some (.dt 5 (some 0)), dtend := none, rrule := none }

/-- The record `evGood` contributes for a window containing instant 5. -/
def evGoodRec : EventRec :=
  { summary := "good", description := "", location := "", organizer := ""
    start := .dt 5 (some 0), «end» := none, all_day := false }

/-- A non-recurring event whose start (an aware datetime, outside the
window) and end (a bare date) mix representations, so the window comparison
of the end raises `TypeError`. -/
def evMixed : VEvent :=
  { summary := "mixed", description := "", location := "", organizer := ""
    dtstart := some (.dt 999 (some 0)), dtend := some (.date 0), rrule := none }

/-- A recurring event whose rule is malformed (expansion raises). -/
def evBadRule : VEvent :=
  { summary := "bad", description := "", location := "", organizer := ""
    dtstart := some (.dt 0 (some 0)), dtend := none
    rrule := some { gen := fun a => [a], ok := false } }

/-- A single-instance rule: one occurrence exactly at the anchor. -/
def oneShotRule : RRule := { gen := fun a => [a], ok := true }

/-- A recurring event whose start is an aware non-UTC datetime: wall clock
0, offset +3600, hence original start instant -3600. -/
def evC2 : VEvent :=
  { summary := "r", description := "", location := "", organizer := ""
    dtstart := some (.dt 0 (some 3600)), dtend := none
    rrule := some oneShotRule }

/-- A recurring event with equal datetime endpoints: a zero duration. -/
def evC3 : VEvent :=
  { summary := "z", description := "", location := "", organizer := ""
    dtstart := some (.dt 0 (some 0)), dtend := some (.dt 0 (some 0))
    rrule := some oneShotRule }

/-- A recurring event with a 10-second duration, for the C3 witness. -/
def evC3w : VEvent :=
  { summary := "w", description := "", location := "", organizer := ""
    dtstart := some (.dt 0 (some 0)), dtend := some (.dt 10 (some 0))
    rrule := some oneShotRule }

/-- A recurring event whose original start is aware non-UTC and whose
original end is naive: the duration computation attaches the start's
(non-UTC) zone to the naive end. -/
def evC6 : VEvent :=
  { summary := "c6", description := "", location := "", organizer := ""
    dtstart := some (.dt 0 (some 3600)), dtend := some (.dt 7200 none)
    rrule := some oneShotRule }

/-- An all-day (bare date) non-recurring event on day 0, for witnesses. -/
def evAllDay : VEvent :=
  { summary := "ad", description := "", location := "", organizer := ""
    dtstart := some (.date 0), dtend := none, rrule := none }

/-- A non-recurring component lacking a start field: `.dt` on the missing
`dtstart` raises `AttributeError`. -/
def evNoStart : VEvent :=
  { summary := "ns", description := "", location := "", organizer := ""
    dtstart := none, dtend := none, rrule := none }

/-!
## Helper lemmas
-/

theorem nonRecNorm_fst_aware (ds : PyDT) (de? : Option PyDT) :
    ∃ c z, attachUTCIfNaiveDT (nonRecNorm ds de?).1 = .dt c (some z) := by
  rcases ds with d | ⟨c, _ | z⟩
  · exact ⟨d * secondsPerDay, 0, rfl⟩
  · exact ⟨c, 0, rfl⟩
  · exact ⟨c, z, rfl⟩

theorem windowTest_utc_aware (ls le c z : Int) (ee? : Option PyDT) :
    windowTest (utcDT ls) (utcDT le) (.dt c (some z)) ee? =
      if inWindow ls le (some (.dt c (some z))) then .ok true
      else
        match ee? with
        | none => .ok false
        | some (.dt c2 (some z2)) => .ok (inWindow ls le (some (.dt c2 (some z2))))
        | some _ => .error "TypeError" := by
  by_cases h1 : ls ≤ c - z <;> by_cases h2 : c - z ≤ le <;>
    rcases ee? with _ | (d | ⟨c2, _ | z2⟩) <;>
      simp [windowTest, utcDT, pyLE, inWindow, h1, h2] <;>
        by_cases h3 : ls ≤ c2 - z2 <;> simp [h3]

/-- C1: for every non-recurring event definition that the parser processes
without raising, the definition is included (as exactly one occurrence,
hence the `Option`) if and only if its normalized start or its normalized
end falls within the inclusive window `[ls, le]`. -/
theorem c1_nonrecurring_endpoint_window_iff (ev : VEvent) (ls le : Int)
    (occ? : Option EventRec)
    (hok : processNonRecurring ev (utcDT ls) (utcDT le) = .ok occ?) :
    occ?.isSome = (inWindow ls le (nonRecStart ev) || inWindow ls le (nonRecEnd ev)) := by
  rcases hds : ev.dtstart with _ | ds
  · simp [processNonRecurring, hds] at hok
  · obtain ⟨c, z, hes⟩ := nonRecNorm_fst_aware ds ev.dtend
    have hstart : nonRecStart ev = some (.dt c (some z)) := by
      simp [nonRecStart, hds, hes]
    have hendeq : nonRecEnd ev = ((nonRecNorm ds ev.dtend).2.1).map attachUTCIfNaiveDT := by
      simp [nonRecEnd, hds]
    simp only [processNonRecurring, hds] at hok
    rw [hes, windowTest_utc_aware] at hok
    split at hok
    · exact absurd hok (by simp)
    · -- windowTest returned `.ok true`: the event is included
      rename_i hcond
      simp only [Except.ok.injEq] at hok
      subst hok
      simp only [Option.isSome_some, hstart, hendeq]
      split at hcond
      · rename_i hin
        simp [hin]
      · rcases heeq : ((nonRecNorm ds ev.dtend).2.1).map attachUTCIfNaiveDT
          with _ | (d | ⟨c2, _ | z2⟩) <;> rw [heeq] at hcond <;> simp_all
    · -- windowTest returned `.ok false`: the event is excluded
      rename_i hcond
      simp only [Except.ok.injEq] at hok
      subst hok
      simp only [Option.isSome_none, hstart, hendeq]
      split at hcond
      · simp at hcond
      · rename_i hin
        rcases heeq : ((nonRecNorm ds ev.dtend).2.1).map attachUTCIfNaiveDT
          with _ | (d | ⟨c2, _ | z2⟩) <;> rw [heeq] at hcond <;> simp_all [inWindow]

/-- Witness for C1 at a concrete input: the event starting at instant 5 is
inside the window `[0, 10]` and is reported included. -/
theorem c1_nonrecurring_endpoint_window_iff_witness :
    (some evGoodRec).isSome =
      (inWindow 0 10 (nonRecStart evGood) || inWindow 0 10 (nonRecEnd evGood)) :=
  c1_nonrecurring_endpoint_window_iff evGood 0 10 (some evGoodRec) rfl

theorem windowAdjust_utc (x : PyDT) (ls le : Int) :
    windowAdjust x (utcDT ls) (utcDT le) = .ok (utcDT ls, utcDT le) := by
  rcases x with d | ⟨c, _ | z⟩ <;> rfl

theorem filterExc_ok (p : Int → Except String Bool) (q : Int → Bool)
    (hpq : ∀ t, p t = .ok (q t)) : ∀ l, filterExc p l = .ok (l.filter q) := by
  intro l
  induction l with
  | nil => rfl
  | cons t ts ih =>
    simp only [filterExc, hpq t, ih, List.filter_cons]

theorem ruleBetween_utc (r : RRule) (anchor ls le : Int) (hrok : r.ok = true) :
    ruleBetween r anchor (utcDT ls) (utcDT le) =
      .ok ((r.gen anchor).filter (fun t => decide (ls ≤ t) && decide (t ≤ le))) := by
  unfold ruleBetween
  rw [hrok, if_pos rfl]
  apply filterExc_ok
  intro t
  simp only [utcDT, pyLE]
  by_cases h : ls ≤ t <;> simp [h]

/-- C2 (amended): the recurring path anchors the rule at the instant whose
UTC reading equals the normalized start's wall clock (`rruleAnchor`), and
the produced occurrences are exactly one per rule-generated instance start
within `[ls, le]` inclusive; no produced occurrence starts outside the
window. -/
theorem c2_recurring_window_filter (ev : VEvent) (r : RRule) (ds : PyDT)
    (ls le : Int) (l : List EventRec)
    (hr : ev.rrule = some r) (hds : ev.dtstart = some ds) (hrok : r.ok = true)
    (hres : processComponent ev (utcDT ls) (utcDT le) = .ok l) :
    l = ((r.gen (rruleAnchor (attachUTCIfNaiveDT ds))).filter
          (fun t => decide (ls ≤ t) && decide (t ≤ le))).map (recOccurrence ev)
    ∧ ∀ occ ∈ l, ∃ t, occ.start = PyDT.dt t (some 0) ∧ ls ≤ t ∧ t ≤ le := by
  simp only [processComponent, hr, processRecurring, hds] at hres
  rw [windowAdjust_utc] at hres
  simp only [expandRecurring, ruleBetween_utc r _ ls le hrok, Except.ok.injEq] at hres
  subst hres
  refine ⟨rfl, ?_⟩
  intro occ hocc
  simp only [List.mem_map] at hocc
  obtain ⟨t, ht, rfl⟩ := hocc
  simp only [List.mem_filter, Bool.and_eq_true, decide_eq_true_eq] at ht
  exact ⟨t, rfl, ht.2.1, ht.2.2⟩

/-- Witness for the amended C2 at a concrete input: the one-shot rule of
`evC2` yields exactly the anchor instant 0 inside the window `[0, 0]`. -/
theorem c2_recurring_window_filter_witness :
    [recOccurrence evC2 0] =
      ((oneShotRule.gen (rruleAnchor (attachUTCIfNaiveDT (.dt 0 (some 3600))))).filter
        (fun t => decide ((0:Int) ≤ t) && decide (t ≤ 0))).map (recOccurrence evC2)
    ∧ ∀ occ ∈ [recOccurrence evC2 0],
        ∃ t, occ.start = PyDT.dt t (some 0) ∧ (0:Int) ≤ t ∧ t ≤ 0 :=
  c2_recurring_window_filter evC2 oneShotRule (.dt 0 (some 3600)) 0 0
    [recOccurrence evC2 0] rfl rfl rfl rfl

/-- Counterexample to C2 as stated: `evC2` starts at wall clock 0 with
offset +3600, i.e. at the original instant -3600; a rule anchored at that
original instant generates no instance start inside `[0, 0]`, yet the code
(whose `DTSTART` string re-reads the wall clock as UTC) produces one
occurrence. -/
theorem c2_counterexample :
    processComponent evC2 (utcDT 0) (utcDT 0) = .ok [recOccurrence evC2 0]
    ∧ (recOccurrence evC2 0).start.instant? = some 0
    ∧ (PyDT.dt 0 (some 3600)).instant? = some (-3600)
    ∧ (oneShotRule.gen (-3600)).filter
        (fun t => decide ((0:Int) ≤ t) && decide (t ≤ 0)) = [] := by
  refine ⟨rfl, rfl, rfl, ?_⟩
  simp [oneShotRule]

/-- C3 (amended): for an expanded recurrence instance the occurrence end is
`instance start + original duration` exactly when an end was specified,
both original endpoints are date-times AND the duration is non-zero (a zero
`timedelta` is falsy in Python, so `if duration:` drops the end of a
zero-duration event); the end is absent when the end is missing, the
original representations mismatch in type, or the duration is zero. -/
theorem c3_instance_end_duration :
    (∀ ev os oe t d, ev.dtstart = some os → ev.dtend = some oe →
      duration? os oe = some d → d ≠ 0 →
      instanceEnd ev t = some (.dt (t + d) (some 0)))
    ∧ (∀ ev os oe t d, ev.dtstart = some os → ev.dtend = some oe →
      duration? os oe = some d → d = 0 → instanceEnd ev t = none)
    ∧ (∀ ev t, ev.dtend = none → instanceEnd ev t = none)
    ∧ (∀ ev os oe t, ev.dtstart = some os → ev.dtend = some oe →
      duration? os oe = none → instanceEnd ev t = none)
    ∧ (∀ os oe, (duration? os oe).isSome = (os.isDatetime && oe.isDatetime))
    ∧ (∀ c1 z1 c2 z2 : Int,
        duration? (.dt c1 (some z1)) (.dt c2 (some z2)) = some ((c2 - z2) - (c1 - z1))) := by
  refine ⟨?_, ?_, ?_, ?_, ?_, ?_⟩
  · intro ev os oe t d hs he hd hne
    simp [instanceEnd, hs, he, hd, hne]
  · intro ev os oe t d hs he hd h0
    simp [instanceEnd, hs, he, hd, h0]
  · intro ev t he
    cases hs : ev.dtstart <;> simp [instanceEnd, he, hs]
  · intro ev os oe t hs he hd
    simp [instanceEnd, hs, he, hd]
  · intro os oe
    rcases os with d | ⟨c1, _ | z1⟩ <;> rcases oe with e | ⟨c2, _ | z2⟩ <;>
      simp [duration?, fixTzMismatch, pySubSame, PyDT.isDatetime]
  · intro c1 z1 c2 z2
    rfl

/-- Witness for the amended C3 at a concrete input: a 10-second original
duration re-applied to the instance starting at instant 5. -/
theorem c3_instance_end_duration_witness :
    instanceEnd evC3w 5 = some (.dt 15 (some 0)) :=
  c3_instance_end_duration.1 evC3w (.dt 0 (some 0)) (.dt 10 (some 0)) 5 10
    rfl rfl rfl (by decide)

/-- Counterexample to C3 as stated: `evC3` specifies an end, both original
endpoints are date-times, the duration is 0 — the claim demands
`end = start + 0`, but the expanded occurrence's end is absent. -/
theorem c3_counterexample :
    evC3.dtend = some (.dt 0 (some 0))
    ∧ (PyDT.dt 0 (some 0)).isDatetime = true
    ∧ duration? (.dt 0 (some 0)) (.dt 0 (some 0)) = some 0
    ∧ processComponent evC3 (utcDT 0) (utcDT 0) =
        .ok [{ summary := "z", description := "", location := "", organizer := ""
               start := .dt 0 (some 0), «end» := none, all_day := false }] :=
  ⟨rfl, rfl, rfl, rfl⟩

/-- C4: a definition whose recurrence enumeration raises (here a malformed
rule, modelled by `r.ok = false`) is caught by the per-definition `try`: it
contributes zero occurrences and the parse of the surrounding definitions
is unaffected. -/
theorem c4_recurrence_error_recovery (pre post : List VEvent) (ev : VEvent)
    (r : RRule) (ds : PyDT) (ls le : Int)
    (hr : ev.rrule = some r) (hds : ev.dtstart = some ds) (hbad : r.ok = false) :
    processComponent ev (utcDT ls) (utcDT le) = .ok []
    ∧ parse_ical_data (pre ++ ev :: post) (utcDT ls) (utcDT le)
        = parse_ical_data (pre ++ post) (utcDT ls) (utcDT le) := by
  have hcomp : processComponent ev (utcDT ls) (utcDT le) = .ok [] := by
    simp only [processComponent, hr, processRecurring, hds]
    rw [windowAdjust_utc]
    simp [expandRecurring, ruleBetween, hbad]
  refine ⟨hcomp, ?_⟩
  induction pre with
  | nil =>
    simp only [List.nil_append, parse_ical_data, hcomp]
    cases h : parse_ical_data post (utcDT ls) (utcDT le) <;> simp [h]
  | cons x xs ih =>
    simp only [List.cons_append, parse_ical_data, List.append_eq, ih]

/-- Witness for C4 at a concrete input: the malformed-rule event between no
predecessor and one good successor changes nothing. -/
theorem c4_recurrence_error_recovery_witness :
    processComponent evBadRule (utcDT 0) (utcDT 10) = .ok []
    ∧ parse_ical_data ([] ++ evBadRule :: [evGood]) (utcDT 0) (utcDT 10)
        = parse_ical_data ([] ++ [evGood]) (utcDT 0) (utcDT 10) :=
  c4_recurrence_error_recovery [] [evGood] evBadRule
    { gen := fun a => [a], ok := false } (.dt 0 (some 0)) 0 10 rfl rfl rfl

/-- Counterexample to C5 as stated: zero occurrences and no pre-existing
output file — no file is written and the notice is printed, but `main`'s
missing-output-file check then exits with status 1, not 0. -/
theorem c5_counterexample :
    mainTail [] false = (false, true, 1) ∧ (1 : Nat) ≠ 0 :=
  ⟨rfl, by decide⟩

/-- C5 (amended): with zero occurrences found (fetch and parse succeeded)
no output file is written and the notice is printed; the exit status is 0
exactly when the output path already existed from an earlier run, and 1
otherwise (the missing-output-file check at the end of `main` fires). -/
theorem c5_zero_occurrences (preExists : Bool) :
    mainTail [] preExists = (false, true, if preExists then 0 else 1) := by
  cases preExists <;> rfl

/-- Counterexample to C6 as stated: in the recurring path's duration
computation the naive original end (wall clock 7200), encountered with an
aware +3600 original start, receives the start's +3600 zone — not UTC: the
resulting duration is 7200 seconds where UTC attachment would give
`(7200 - 0) - (0 - 3600) = 10800`. -/
theorem c6_counterexample :
    fixTzMismatch (.dt 0 (some 3600)) (.dt 7200 none)
      = (.dt 0 (some 3600), .dt 7200 (some 3600))
    ∧ (PyDT.dt 7200 (some 3600)) ≠ (PyDT.dt 7200 (some 0))
    ∧ duration? (.dt 0 (some 3600)) (.dt 7200 none) = some 7200
    ∧ evC6.dtend = some (.dt 7200 none)
    ∧ instanceEnd evC6 0 = some (.dt 7200 (some 0))
    ∧ (7200 : Int) ≠ (7200 - 0) - (0 - 3600) :=
  ⟨rfl, by decide, rfl, rfl, rfl, by decide⟩

/-- C6 (amended): every naive-datetime normalization site preserves the
wall-clock reading; the window-filter and anchor sites (recurring start,
non-recurring start and end) attach UTC, while the recurring path's
duration computation instead attaches the OTHER endpoint's zone to a naive
endpoint (which is UTC only when that endpoint carries UTC). -/
theorem c6_naive_normalization (c c2 z : Int) (de? : Option PyDT) :
    attachUTCIfNaiveDT (.dt c none) = .dt c (some 0)
    ∧ attachUTCIfNaiveDT (.dt c (some z)) = .dt c (some z)
    ∧ (nonRecNorm (.dt c none) de?).1 = .dt c (some 0)
    ∧ (nonRecNorm (.dt c (some z)) (some (.dt c2 none))).2.1 = some (.dt c2 (some 0))
    ∧ rruleAnchor (attachUTCIfNaiveDT (.dt c none)) = c
    ∧ fixTzMismatch (.dt c (some z)) (.dt c2 none) = (.dt c (some z), .dt c2 (some z))
    ∧ (∀ os oe, ((fixTzMismatch os oe).1).clock? = os.clock?
        ∧ ((fixTzMismatch os oe).2).clock? = oe.clock?) := by
  refine ⟨rfl, rfl, rfl, rfl, rfl, rfl, ?_⟩
  intro os oe
  rcases os with d | ⟨c1, _ | z1⟩ <;> rcases oe with e | ⟨c2', _ | z2⟩ <;>
    simp [fixTzMismatch, PyDT.clock?]

/-- C7: every occurrence produced by the recurring-expansion path has
`all_day = false` regardless of the source representation, while in the
non-recurring path `all_day` is true exactly when the start is a bare
date. -/
theorem c7_all_day_asymmetry :
    (∀ ev r sd ed l, ev.rrule = some r → processComponent ev sd ed = .ok l →
      ∀ occ ∈ l, occ.all_day = false)
    ∧ (∀ ev sd ed occ, processNonRecurring ev sd ed = .ok (some occ) →
      (occ.all_day = true ↔ ∃ d, ev.dtstart = some (.date d))) := by
  constructor
  · intro ev r sd ed l hr hres occ hocc
    cases hds : ev.dtstart with
    | none => simp [processComponent, hr, processRecurring, hds] at hres
    | some ds =>
      simp only [processComponent, hr, processRecurring, hds] at hres
      cases hadj : windowAdjust (attachUTCIfNaiveDT ds) sd ed with
      | error e => rw [hadj] at hres; simp at hres
      | ok w =>
        obtain ⟨w1, w2⟩ := w
        rw [hadj] at hres
        simp only [Except.ok.injEq] at hres
        subst hres
        unfold expandRecurring at hocc
        cases hrb : ruleBetween r (rruleAnchor (attachUTCIfNaiveDT ds)) w1 w2 with
        | error e => rw [hrb] at hocc; simp at hocc
        | ok instances =>
          rw [hrb] at hocc
          simp only [List.mem_map] at hocc
          obtain ⟨t, _, rfl⟩ := hocc
          rfl
  · intro ev sd ed occ hres
    cases hds : ev.dtstart with
    | none => simp [processNonRecurring, hds] at hres
    | some ds =>
      simp only [processNonRecurring, hds] at hres
      split at hres
      · exact absurd hres (by simp)
      · simp only [Except.ok.injEq, Option.some.injEq] at hres
        subst hres
        rcases ds with d | ⟨c, tz⟩
        · simp only [nonRecNorm]
          exact ⟨fun _ => ⟨d, rfl⟩, fun _ => by trivial⟩
        · simp [nonRecNorm]
      · exact absurd hres (by simp)

/-- Witness for C7 at concrete inputs: the expanded instance of `evC2` is
not all-day, and the timed non-recurring `evGood` occurrence is all-day
exactly when its start is a bare date (it is not). -/
theorem c7_all_day_asymmetry_witness :
    (recOccurrence evC2 0).all_day = false
    ∧ (evGoodRec.all_day = true ↔ ∃ d, evGood.dtstart = some (.date d)) :=
  ⟨c7_all_day_asymmetry.1 evC2 oneShotRule (utcDT 0) (utcDT 0)
      [recOccurrence evC2 0] rfl rfl (recOccurrence evC2 0) (by simp),
   c7_all_day_asymmetry.2 evGood (utcDT 0) (utcDT 10) evGoodRec rfl⟩

theorem chopMarker_eq_some {sep x r : List Char} :
    chopMarker sep x = some r ↔ x = sep ++ r := by
  induction sep generalizing x with
  | nil => simp [chopMarker]
  | cons c cs ih =>
    cases x with
    | nil => simp [chopMarker]
    | cons d ds =>
      simp only [chopMarker, List.cons_append, List.cons.injEq]
      by_cases h : c = d
      · subst h
        simp [ih]
      · rw [if_neg h]
        constructor
        · intro hcontra
          exact absurd hcontra (by simp)
        · rintro ⟨hdc, -⟩
          exact absurd hdc.symm h

theorem chopMarker_append (sep r : List Char) : chopMarker sep (sep ++ r) = some r :=
  chopMarker_eq_some.mpr rfl

theorem containsSub_nil_false {sep : List Char} (h : sep ≠ []) :
    containsSub sep [] = false := by
  cases sep with
  | nil => exact absurd rfl h
  | cons c cs => rfl

theorem containsSub_append_self (sep r : List Char) (h : sep ≠ []) :
    containsSub sep (sep ++ r) = true := by
  cases sep with
  | nil => exact absurd rfl h
  | cons c cs =>
    have hc : chopMarker (c :: cs) (c :: (cs ++ r)) = some r :=
      chopMarker_append (c :: cs) r
    show containsSub (c :: cs) (c :: (cs ++ r)) = true
    simp [containsSub, hc]

theorem pySplitAux_ne_nil (sep : List Char) (n : Nat) (s : List Char) :
    pySplitAux sep n s ≠ [] := by
  cases n with
  | zero => simp [pySplitAux]
  | succ n =>
    cases s with
    | nil => simp [pySplitAux]
    | cons d ds =>
      cases hc : chopMarker sep (d :: ds) with
      | some rest => simp [pySplitAux, hc]
      | none =>
        cases hr : pySplitAux sep n ds with
        | nil => simp [pySplitAux, hc, hr]
        | cons t ts => simp [pySplitAux, hc, hr]

theorem pySplitAux_head_spec (sep : List Char) (hsep : sep ≠ []) :
    ∀ n s, s.length < n → containsSub sep s = true →
      (∃ rest, s = (pySplitAux sep n s).headD [] ++ sep ++ rest)
      ∧ containsSub sep ((pySplitAux sep n s).headD []) = false := by
  intro n
  induction n with
  | zero => intro s h _; exact absurd h (Nat.not_lt_zero _)
  | succ n ih =>
    intro s hlen hc
    cases s with
    | nil => rw [containsSub_nil_false hsep] at hc; cases hc
    | cons d ds =>
      cases hchop : chopMarker sep (d :: ds) with
      | some rest0 =>
        have hs : d :: ds = sep ++ rest0 := chopMarker_eq_some.mp hchop
        have hh : (pySplitAux sep (n + 1) (d :: ds)).headD [] = [] := by
          simp [pySplitAux, hchop]
        constructor
        · exact ⟨rest0, by rw [hh, hs]; simp⟩
        · rw [hh, containsSub_nil_false hsep]
      | none =>
        have hcds : containsSub sep ds = true := by
          simpa [containsSub, hchop] using hc
        have hlen' : ds.length < n := by
          simpa using Nat.lt_of_succ_lt_succ hlen
        obtain ⟨⟨rest, hrest⟩, hfree⟩ := ih ds hlen' hcds
        obtain ⟨t, ts, hts⟩ : ∃ t ts, pySplitAux sep n ds = t :: ts := by
          cases h : pySplitAux sep n ds with
          | nil => exact absurd h (pySplitAux_ne_nil sep n ds)
          | cons t ts => exact ⟨t, ts, rfl⟩
        have hhead : (pySplitAux sep (n + 1) (d :: ds)).headD [] = d :: t := by
          simp [pySplitAux, hchop, hts]
        rw [hts] at hrest hfree
        simp only [List.headD_cons] at hrest hfree
        constructor
        · exact ⟨rest, by rw [hhead]; simp [hrest]⟩
        · rw [hhead]
          have hchop2 : chopMarker sep (d :: t) = none := by
            cases h2 : chopMarker sep (d :: t) with
            | none => rfl
            | some r1 =>
              have hdt : d :: t = sep ++ r1 := chopMarker_eq_some.mp h2
              have : chopMarker sep (d :: ds) = some (r1 ++ (sep ++ rest)) := by
                apply chopMarker_eq_some.mpr
                rw [show d :: ds = (d :: t) ++ (sep ++ rest) by simp [hrest], hdt]
                simp
              rw [this] at hchop
              cases hchop
          simp [containsSub, hchop2, hfree]

theorem pySplitAux_no_marker (sep : List Char) :
    ∀ n s, s.length < n → containsSub sep s = false → pySplitAux sep n s = [s] := by
  intro n
  induction n with
  | zero => intro s h _; exact absurd h (Nat.not_lt_zero _)
  | succ n ih =>
    intro s hlen hc
    cases s with
    | nil => rfl
    | cons d ds =>
      have hchop : chopMarker sep (d :: ds) = none := by
        cases h : chopMarker sep (d :: ds) with
        | none => rfl
        | some r => simp [containsSub, h] at hc
      have hcds : containsSub sep ds = false := by
        simpa [containsSub, hchop] using hc
      have hrec : pySplitAux sep n ds = [ds] :=
        ih ds (by simpa using Nat.lt_of_succ_lt_succ hlen) hcds
      simp [pySplitAux, hchop, hrec]

theorem pySplitAux_marker_once (sep b : List Char) (hsep : sep ≠ []) (n : Nat)
    (hn : b.length < n) (hb : containsSub sep b = false) :
    pySplitAux sep (n + 1) (sep ++ b) = [[], b] := by
  cases sep with
  | nil => exact absurd rfl hsep
  | cons c cs =>
    show pySplitAux (c :: cs) (n + 1) ((c :: cs) ++ b) = [[], b]
    rw [show ((c :: cs) ++ b) = c :: (cs ++ b) from rfl, pySplitAux,
      show (c :: (cs ++ b)) = (c :: cs) ++ b from rfl, chopMarker_append]
    show [] :: pySplitAux (c :: cs) n b = [[], b]
    rw [pySplitAux_no_marker (c :: cs) n b hn hb]

theorem pySplit_getD_zero (sep s : String) :
    (pySplit sep s).getD 0 "" =
      ⟨(pySplitAux sep.data (s.data.length + 1) s.data).headD []⟩ := by
  unfold pySplit
  cases h : pySplitAux sep.data (s.data.length + 1) s.data with
  | nil => exact absurd h (pySplitAux_ne_nil _ _ _)
  | cons t ts => simp

/-- C8 (amended): the details-block truncation picks its marker by the
`if/elif` priority order — Teams first, then Zoom, then the German Zoom
invitation — and cuts at the first occurrence of THAT marker (not at the
earliest occurrence of any marker).  In particular, for a description
containing `"Join Zoom Meeting"` but not `"Join Microsoft Teams Meeting"`,
the rendered details are exactly the text preceding the first occurrence
of the Zoom marker: the output concatenated with the marker is a prefix of
the input, and the output itself is marker-free. -/
theorem c8_truncation_priority (d : String)
    (hteams : pyContains "Join Microsoft Teams Meeting" d = false)
    (hzoom : pyContains "Join Zoom Meeting" d = true) :
    (∃ rest : List Char,
      d.data = (truncate_description d).data ++ "Join Zoom Meeting".data ++ rest)
    ∧ pyContains "Join Zoom Meeting" (truncate_description d) = false := by
  have hsep : "Join Zoom Meeting".data ≠ [] := by decide
  obtain ⟨⟨rest, hrest⟩, hfree⟩ :=
    pySplitAux_head_spec "Join Zoom Meeting".data hsep (d.data.length + 1) d.data
      (Nat.lt_succ_self _) hzoom
  have htr : truncate_description d =
      ⟨(pySplitAux "Join Zoom Meeting".data (d.data.length + 1) d.data).headD []⟩ := by
    unfold truncate_description
    rw [hteams, hzoom]
    simp only [Bool.false_eq_true, if_false, if_true]
    exact pySplit_getD_zero _ _
  rw [htr]
  exact ⟨⟨rest, hrest⟩, hfree⟩

/-- Witness for the amended C8 at a concrete input: a description with
Zoom boilerplate renders only the text before the marker. -/
theorem c8_truncation_priority_witness :
    (∃ rest : List Char,
      ("x Join Zoom Meeting dialin" : String).data =
        (truncate_description "x Join Zoom Meeting dialin").data
          ++ "Join Zoom Meeting".data ++ rest)
    ∧ pyContains "Join Zoom Meeting"
        (truncate_description "x Join Zoom Meeting dialin") = false :=
  c8_truncation_priority "x Join Zoom Meeting dialin" rfl rfl

/-- Counterexample to C8 as stated: in a description where the Zoom marker
occurs BEFORE the Teams marker, the code truncates at the (later) Teams
marker, so the rendered text is not the text preceding the first marker of
any kind — it still contains the Zoom marker. -/
theorem c8_counterexample :
    truncate_description "A Join Zoom Meeting B Join Microsoft Teams Meeting C"
      = "A Join Zoom Meeting B "
    ∧ pyContains "Join Zoom Meeting" "A Join Zoom Meeting B " = true
    ∧ ("A Join Zoom Meeting B " : String) ≠ "A " :=
  ⟨rfl, rfl, by decide⟩

/-- C9 (amended): the organizer transformation happens in formatting, not
parsing (parse keeps the raw identifier); formatting tests CONTAINMENT of
`"MAILTO:"` (not a prefix test) and renders the whitespace-stripped segment
after the first occurrence up to the next occurrence (to the end when it
occurs once); an identifier not containing the marker anywhere is rendered
unchanged — in particular `"MAILTO:" ++ b` with marker-free `b` renders as
`b.strip()`. -/
theorem c9_organizer_marker_strip :
    (∀ s, pyContains "MAILTO:" s = false → format_organizer s = s)
    ∧ (∀ b : String, pyContains "MAILTO:" b = false →
        format_organizer ⟨"MAILTO:".data ++ b.data⟩ = pyStrip b)
    ∧ (∀ e : EventRec, (format_event e).Organizer = format_organizer e.organizer)
    ∧ (∀ ev t, (recOccurrence ev t).organizer = ev.organizer)
    ∧ (∀ ev sd ed occ, processNonRecurring ev sd ed = .ok (some occ) →
        occ.organizer = ev.organizer) := by
  refine ⟨?_, ?_, fun _ => rfl, fun _ _ => rfl, ?_⟩
  · intro s h
    unfold format_organizer
    rw [h]
    simp
  · intro b hb
    have hsep : "MAILTO:".data ≠ [] := by decide
    have hcont : pyContains "MAILTO:" ⟨"MAILTO:".data ++ b.data⟩ = true :=
      containsSub_append_self "MAILTO:".data b.data hsep
    unfold format_organizer
    rw [hcont]
    simp only [if_true]
    have hsplit : pySplit "MAILTO:" ⟨"MAILTO:".data ++ b.data⟩
        = ["", ⟨b.data⟩] := by
      unfold pySplit
      have hlen : ("MAILTO:".data ++ b.data).length = 7 + b.data.length := by
        simp
        omega
      rw [show (String.mk ("MAILTO:".data ++ b.data)).data
            = "MAILTO:".data ++ b.data from rfl, hlen]
      rw [show (7 + b.data.length) + 1 = (6 + b.data.length) + 1 + 1 by omega]
      rw [pySplitAux_marker_once "MAILTO:".data b.data hsep (6 + b.data.length + 1)
        (by omega) hb]
      rfl
    rw [hsplit]
    rfl
  · intro ev sd ed occ hres
    cases hds : ev.dtstart with
    | none => simp [processNonRecurring, hds] at hres
    | some ds =>
      simp only [processNonRecurring, hds] at hres
      split at hres
      · exact absurd hres (by simp)
      · simp only [Except.ok.injEq, Option.some.injEq] at hres
        subst hres
        rfl
      · exact absurd hres (by simp)

/-- Witness for the amended C9 at concrete inputs: a marker-free identifier
is unchanged, and a prefixed address is stripped to the address. -/
theorem c9_organizer_marker_strip_witness :
    format_organizer "nobody@example.com" = "nobody@example.com"
    ∧ format_organizer ⟨"MAILTO:".data ++ "alice@example.com".data⟩
        = pyStrip "alice@example.com" :=
  ⟨c9_organizer_marker_strip.1 "nobody@example.com" rfl,
   c9_organizer_marker_strip.2.1 "alice@example.com" rfl⟩

/-- Counterexample to C9 as stated: `"aMAILTO:b"` does not start with the
mail-scheme prefix (so per the claim it should render unchanged), yet the
containment test fires and the code renders `"b"`. -/
theorem c9_counterexample :
    chopMarker "MAILTO:".data "aMAILTO:b".data = none
    ∧ format_organizer "aMAILTO:b" = "b"
    ∧ ("b" : String) ≠ "aMAILTO:b" :=
  ⟨rfl, rfl, by decide⟩

/-- C10: the recover-and-continue policy is exclusive to the recurring
path.  A non-recurring component that fails during processing — here one
whose start (outside the window) and bare-date end make the line-165
comparison raise `TypeError`, and one lacking a start field — aborts the
ENTIRE parse with a diagnostic and non-zero exit (modelled by `.error`),
discarding even previously collected events; a recurring component whose
rule enumeration fails is merely skipped and processing continues. -/
theorem c10_nonrecurring_failure_aborts :
    parse_ical_data [evGood, evMixed] (utcDT 0) (utcDT 10) = .error "TypeError"
    ∧ parse_ical_data [evNoStart] (utcDT 0) (utcDT 10) = .error "AttributeError"
    ∧ parse_ical_data [evBadRule, evGood] (utcDT 0) (utcDT 10) = .ok [evGoodRec] :=
  ⟨rfl, rfl, rfl⟩
